import Mathlib

set_option autoImplicit false

/-!
Verification of the brain-cli multi-agent orchestration core against its
natural-language specification.  The Lean definitions in this file are a
shallow embedding of the Python sources:

* `src/brain/fleet.py`                — `AgentFleetManager` (scheduler)
* `src/brain/worktree.py`             — `WorktreeManager`
* `src/brain/observability/hooks.py`  — `HookManager` (event bus)
* `src/brain/observability/storage.py`— `EventStore`

Conventions of the embedding:
* Python `datetime` values become abstract integer time stamps (`Nat`/`Int`);
  only their ordering and differences matter to the claims.
* `uuid.uuid4().hex[:8]` (the random id suffix in `spawn_agent`) is modelled
  as a fresh-counter supply `nextUuid` carried in the scheduler state: each
  spawn consumes one token, mirroring the intended freshness of the uuid.
* Subprocess invocations of git become an explicit environment record
  (`GitEnv`) giving the outcome of each command, and each embedded function
  additionally returns the list of git commands it invoked, so that claims
  about "does not invoke the VCS" are expressible.
* Python exceptions become explicit outcome constructors; `try/except`
  blocks become matches on those outcomes.
-/

namespace Brain

/-! ## Association lists

Python `dict[str, ...]` fields (`active_agents`, `active_worktrees`) are
modelled as association lists with first-match lookup; `dict` assignment
replaces the existing entry, `del` removes it. -/

def alistLookup {κ β : Type} [DecidableEq κ] (k : κ) : List (κ × β) → Option β
  | [] => none
  | (k₁, v₁) :: rest => if k₁ = k then some v₁ else alistLookup k rest

def alistInsert {κ β : Type} [DecidableEq κ] (k : κ) (v : β) : List (κ × β) → List (κ × β)
  | [] => [(k, v)]
  | (k₁, v₁) :: rest =>
    if k₁ = k then (k, v) :: rest else (k₁, v₁) :: alistInsert k v rest

def alistErase {κ β : Type} [DecidableEq κ] (k : κ) : List (κ × β) → List (κ × β)
  | [] => []
  | (k₁, v₁) :: rest => if k₁ = k then rest else (k₁, v₁) :: alistErase k rest

theorem alistLookup_erase_ne {κ β : Type} [DecidableEq κ] (k k₁ : κ) (l : List (κ × β))
    (h : k₁ ≠ k) : alistLookup k₁ (alistErase k l) = alistLookup k₁ l := by
  induction l with
  | nil => rfl
  | cons p rest ih =>
    obtain ⟨k₂, v₂⟩ := p
    by_cases hk : k₂ = k
    · subst hk
      have hne : ¬ (k₂ = k₁) := fun hh => h hh.symm
      simp [alistErase, alistLookup, hne]
    · simp only [alistErase, if_neg hk]
      by_cases hk₁ : k₂ = k₁
      · simp [alistLookup, hk₁]
      · simp [alistLookup, hk₁, ih]

/-! ## Fleet scheduler: data model (`fleet.py`) -/

/-- `AgentStatus` from `fleet.py`. -/
inductive AgentStatus
  | spawning
  | running
  | completed
  | failed
  | shutdown
deriving DecidableEq, Repr

/-- `AgentResult` from `agents/base.py` (the fields the scheduler reads;
costs and durations are abstract numerals). -/
structure AgentResult where
  response : String
  tokensUsed : Nat
  cost : Nat
  timeTaken : Nat
deriving DecidableEq, Repr

/-- An agent identifier `f"{config['name']}-{uuid4().hex[:8]}"`: the config
name plus the fresh uuid token (see the header note on uuid modelling). -/
structure AgentId where
  name : String
  uuid : Nat
deriving DecidableEq, Repr

/-- `AgentInstance` dataclass from `fleet.py`. -/
structure AgentInstance where
  agentId : AgentId
  agentName : String
  project : String
  task : String
  status : AgentStatus
  worktreePath : Option String
  spawnTime : Nat
  completionTime : Option Nat := none
  result : Option AgentResult := none
  error : Option String := none
deriving DecidableEq, Repr

/-- One queued submission tuple `(agent_class, task, project, config, worktree_path)`;
the agent class itself is opaque to the scheduler's control flow and the
config is represented by the one key the scheduler reads, `config['name']`. -/
structure Submission where
  agentName : String
  task : String
  project : String
  worktreePath : Option String
deriving DecidableEq, Repr

/-- The mutable state of `AgentFleetManager`: concurrency bound, active map,
FIFO queue, plus the uuid fresh-counter supply. -/
structure FleetState where
  maxConcurrent : Nat
  activeAgents : List (AgentId × AgentInstance)
  taskQueue : List Submission
  nextUuid : Nat
deriving DecidableEq, Repr

/-- Well-formedness carried by every real scheduler state: every id in the
active map was produced by an earlier draw from the uuid supply. -/
def FleetWF (s : FleetState) : Prop :=
  ∀ p ∈ s.activeAgents, p.1.uuid < s.nextUuid

/-- `AgentFleetManager.spawn_agent` (`fleet.py` lines 121-186), up to the
point where it returns: the concurrency check against
`len(self.active_agents)`, the queue append on overflow (returning the
`None` sentinel), and otherwise the creation and registration of a fresh
`Spawning` instance whose id is returned.  The asynchronous launch of
`_run_agent` and the `agent_spawned` hook are modelled separately (see the
cooperative-scheduling section below). -/
def spawnAgent (s : FleetState) (sub : Submission) (now : Nat) :
    Option AgentId × FleetState :=
  if s.activeAgents.length ≥ s.maxConcurrent then
    (none, { s with taskQueue := s.taskQueue ++ [sub] })
  else
    let agentId : AgentId := ⟨sub.agentName, s.nextUuid⟩
    let inst : AgentInstance :=
      { agentId := agentId
        agentName := sub.agentName
        project := sub.project
        task := sub.task
        status := .spawning
        worktreePath := sub.worktreePath
        spawnTime := now }
    (some agentId,
      { s with
          activeAgents := alistInsert agentId inst s.activeAgents
          nextUuid := s.nextUuid + 1 })

theorem alistLookup_insert_self {κ β : Type} [DecidableEq κ] (k : κ) (v : β)
    (l : List (κ × β)) : alistLookup k (alistInsert k v l) = some v := by
  induction l with
  | nil => simp [alistInsert, alistLookup]
  | cons p rest ih =>
    obtain ⟨k₁, v₁⟩ := p
    by_cases hk : k₁ = k
    · simp [alistInsert, hk, alistLookup]
    · simp [alistInsert, hk, alistLookup, ih]

/-- C1: a fresh id is fresh — helper: membership of an id in the insert. -/
theorem alistInsert_mem_keys {κ β : Type} [DecidableEq κ] (k k₁ : κ) (v : β)
    (l : List (κ × β)) (h : ∃ w, (k₁, w) ∈ alistInsert k v l) :
    k₁ = k ∨ ∃ w, (k₁, w) ∈ l := by
  induction l with
  | nil =>
    obtain ⟨w, hw⟩ := h
    simp [alistInsert] at hw
    exact Or.inl hw.1
  | cons p rest ih =>
    obtain ⟨k₂, v₂⟩ := p
    obtain ⟨w, hw⟩ := h
    by_cases hk : k₂ = k
    · subst hk
      simp [alistInsert] at hw
      rcases hw with ⟨h1, _⟩ | h2
      · exact Or.inl h1
      · exact Or.inr ⟨w, List.mem_cons_of_mem _ h2⟩
    · simp only [alistInsert, if_neg hk] at hw
      rcases List.mem_cons.mp hw with h1 | h2
      · refine Or.inr ⟨v₂, ?_⟩
        have hk₁ : k₁ = k₂ := congrArg Prod.fst h1
        rw [hk₁]
        exact List.mem_cons_self _ _
      · rcases ih ⟨w, h2⟩ with h3 | ⟨w₁, h4⟩
        · exact Or.inl h3
        · exact Or.inr ⟨w₁, List.mem_cons_of_mem _ h4⟩

/-! ## Claim C1: admission versus queueing in `spawn_agent` -/

/-- C1.
For every submission to the fleet scheduler: if the active-instance count is
strictly below `max_concurrent`, `submit` admits the task and returns a
unique agent id (fresh: not the id of any active instance, and drawn from a
supply that the admission advances, so no later spawn reuses it); if the
active count is at least `max_concurrent`, `submit` appends the submission
at the tail of the FIFO queue and returns the `None` sentinel carrying no
id.  In particular with `active == max_concurrent - 1` it admits and with
`active == max_concurrent` it queues. -/
theorem C1_submit_admits_or_queues (s : FleetState) (sub : Submission) (now : Nat)
    (hwf : FleetWF s) :
    (s.activeAgents.length < s.maxConcurrent →
      ∃ id, (spawnAgent s sub now).1 = some id ∧
        (∀ w, (id, w) ∉ s.activeAgents) ∧
        alistLookup id (spawnAgent s sub now).2.activeAgents =
          some { agentId := id, agentName := sub.agentName, project := sub.project,
                 task := sub.task, status := .spawning,
                 worktreePath := sub.worktreePath, spawnTime := now } ∧
        (spawnAgent s sub now).2.nextUuid = s.nextUuid + 1 ∧
        FleetWF (spawnAgent s sub now).2) ∧
    (s.activeAgents.length ≥ s.maxConcurrent →
      (spawnAgent s sub now).1 = none ∧
      (spawnAgent s sub now).2.taskQueue = s.taskQueue ++ [sub] ∧
      (spawnAgent s sub now).2.activeAgents = s.activeAgents) ∧
    (s.activeAgents.length + 1 = s.maxConcurrent →
      (spawnAgent s sub now).1.isSome = true) ∧
    (s.activeAgents.length = s.maxConcurrent →
      (spawnAgent s sub now).1 = none) := by
  refine ⟨?_, ?_, ?_, ?_⟩
  · intro hlt
    have hcond : ¬ s.activeAgents.length ≥ s.maxConcurrent := Nat.not_le.mpr hlt
    refine ⟨⟨sub.agentName, s.nextUuid⟩, ?_, ?_, ?_, ?_, ?_⟩
    · simp [spawnAgent, hcond]
    · intro w hw
      have := hwf _ hw
      simp at this
    · simp only [spawnAgent, if_neg hcond]
      exact alistLookup_insert_self _ _ _
    · simp [spawnAgent, hcond]
    · intro p hp
      simp only [spawnAgent, if_neg hcond] at hp
      rcases alistInsert_mem_keys _ _ _ _ ⟨p.2, hp⟩ with h1 | ⟨w, h2⟩
      · simp only [spawnAgent, if_neg hcond]
        rw [h1]
        exact Nat.lt_succ_self _
      · have := hwf (p.1, w) h2
        simp only [spawnAgent, if_neg hcond]
        exact Nat.lt_succ_of_lt this
  · intro hge
    simp [spawnAgent, hge]
  · intro heq
    have hlt : s.activeAgents.length < s.maxConcurrent := by omega
    have hcond : ¬ s.activeAgents.length ≥ s.maxConcurrent := Nat.not_le.mpr hlt
    simp [spawnAgent, hcond]
  · intro heq
    have hge : s.activeAgents.length ≥ s.maxConcurrent := le_of_eq heq.symm
    simp [spawnAgent, hge]

/-- Witness for C1 at a concrete state: `max_concurrent = 2`, one active
instance, a fresh submission is admitted. -/
def c1Instance : AgentInstance :=
  { agentId := ⟨"claude-code", 0⟩
    agentName := "claude-code"
    project := "demo"
    task := "write tests"
    status := .running
    worktreePath := none
    spawnTime := 0 }

def c1State : FleetState :=
  { maxConcurrent := 2
    activeAgents := [(⟨"claude-code", 0⟩, c1Instance)]
    taskQueue := []
    nextUuid := 1 }

def c1Sub : Submission :=
  { agentName := "gemini", task := "review", project := "demo", worktreePath := none }

theorem C1_submit_admits_or_queues_witness :
    FleetWF c1State ∧
    ((c1State.activeAgents.length < c1State.maxConcurrent →
      ∃ id, (spawnAgent c1State c1Sub 5).1 = some id ∧
        (∀ w, (id, w) ∉ c1State.activeAgents) ∧
        alistLookup id (spawnAgent c1State c1Sub 5).2.activeAgents =
          some { agentId := id, agentName := c1Sub.agentName, project := c1Sub.project,
                 task := c1Sub.task, status := .spawning,
                 worktreePath := c1Sub.worktreePath, spawnTime := 5 } ∧
        (spawnAgent c1State c1Sub 5).2.nextUuid = c1State.nextUuid + 1 ∧
        FleetWF (spawnAgent c1State c1Sub 5).2) ∧
    (c1State.activeAgents.length ≥ c1State.maxConcurrent →
      (spawnAgent c1State c1Sub 5).1 = none ∧
      (spawnAgent c1State c1Sub 5).2.taskQueue = c1State.taskQueue ++ [c1Sub] ∧
      (spawnAgent c1State c1Sub 5).2.activeAgents = c1State.activeAgents) ∧
    (c1State.activeAgents.length + 1 = c1State.maxConcurrent →
      (spawnAgent c1State c1Sub 5).1.isSome = true) ∧
    (c1State.activeAgents.length = c1State.maxConcurrent →
      (spawnAgent c1State c1Sub 5).1 = none)) := by
  have hwf : FleetWF c1State := by
    intro p hp
    simp [c1State] at hp
    rw [hp]
    decide
  exact ⟨hwf, C1_submit_admits_or_queues c1State c1Sub 5 hwf⟩

/-! ## Claim C2: `wait_for_agent` (`fleet.py` lines 305-336)

One iteration of the polling loop is embedded as `waitStep`: it reads the
active map, classifies the instance, and either exits the loop (returning a
result or raising a typed error) or polls again after the 0.5 s sleep.  The
loop never writes the scheduler state, which `waitStep` makes explicit by
returning the state unchanged.

The crucial detail is Python truthiness: the source guards the timeout
check with `if timeout:`, which is `False` both for `None` and for `0`. -/

/-- Outcome of one iteration of the `wait_for_agent` loop. -/
inductive WaitOutcome
  | ok (r : Option AgentResult)
  | errUnknown
  | errFailed (msg : Option String)
  | errTimeout
  | poll
deriving DecidableEq, Repr

/-- Python truthiness of the optional `timeout` argument: `if timeout:` is
false for `None` and for `0`. -/
def timeoutTruthy : Option Nat → Bool
  | none => false
  | some v => v != 0

/-- One iteration of the `while True` loop of `wait_for_agent`, given the
elapsed wall-clock seconds since the wait began.  Mirrors the source order:
unknown-id check, terminal check (Failed raises, Completed returns the
stored result), truthiness-guarded timeout check, then sleep-and-poll. -/
def waitStep (s : FleetState) (id : AgentId) (timeout : Option Nat) (elapsed : Nat) :
    WaitOutcome × FleetState :=
  match alistLookup id s.activeAgents with
  | none => (.errUnknown, s)
  | some inst =>
    if inst.status = .completed ∨ inst.status = .failed then
      if inst.status = .failed then (.errFailed inst.error, s) else (.ok inst.result, s)
    else if timeoutTruthy timeout && decide (elapsed > timeout.getD 0) then
      (.errTimeout, s)
    else
      (.poll, s)

/-- A running instance used to exercise the wait loop. -/
def c2RunInst : AgentInstance :=
  { agentId := ⟨"gemini", 3⟩
    agentName := "gemini"
    project := "demo"
    task := "slow task"
    status := .running
    worktreePath := none
    spawnTime := 0 }

def c2State : FleetState :=
  { maxConcurrent := 10
    activeAgents := [(⟨"gemini", 3⟩, c2RunInst)]
    taskQueue := []
    nextUuid := 4 }

/-- C2, counterexample.
The claim asserts `wait(id, timeout=0)` on a not-yet-terminal instance
returns Timeout.  In the source the timeout check is guarded by
`if timeout:`, which is false for `0`, so the loop never raises
`TimeoutError`: on a running instance the iteration outcome is `poll`
(sleep and retry) for every elapsed time — here even after 999999 elapsed
seconds — never `errTimeout`. -/
theorem C2_wait_timeout_zero_counterexample :
    c2RunInst.status = .running ∧
    (waitStep c2State ⟨"gemini", 3⟩ (some 0) 0).1 = .poll ∧
    (waitStep c2State ⟨"gemini", 3⟩ (some 0) 999999).1 = .poll ∧
    (waitStep c2State ⟨"gemini", 3⟩ (some 0) 999999).1 ≠ .errTimeout := by
  refine ⟨rfl, ?_, ?_, ?_⟩ <;> decide

/-- C2, amended.
`wait(id, timeout)` blocks until the instance reaches a terminal state or a
*positive* timeout elapses: it returns the stored result when the state is
Completed; fails with a typed error when the state is Failed, when the id
is unknown, or when a positive timeout is exceeded.  `timeout=0` (like
`timeout=None`) is treated as no timeout — on a not-yet-terminal instance
the wait keeps polling instead of returning Timeout.  A wait iteration
never changes the scheduler state. -/
theorem C2_wait_typed_outcomes (s : FleetState) (id : AgentId)
    (timeout : Option Nat) (elapsed : Nat) :
    (alistLookup id s.activeAgents = none →
      (waitStep s id timeout elapsed).1 = .errUnknown) ∧
    (∀ inst, alistLookup id s.activeAgents = some inst →
      (inst.status = .completed → (waitStep s id timeout elapsed).1 = .ok inst.result) ∧
      (inst.status = .failed → (waitStep s id timeout elapsed).1 = .errFailed inst.error) ∧
      (inst.status ≠ .completed → inst.status ≠ .failed →
        (∀ v, timeout = some v → v ≠ 0 → elapsed > v →
          (waitStep s id timeout elapsed).1 = .errTimeout) ∧
        ((timeout = none ∨ timeout = some 0 ∨
            (∃ v, timeout = some v ∧ elapsed ≤ v)) →
          (waitStep s id timeout elapsed).1 = .poll))) ∧
    (waitStep s id timeout elapsed).2 = s := by
  refine ⟨?_, ?_, ?_⟩
  · intro hnone
    simp [waitStep, hnone]
  · intro inst hsome
    refine ⟨?_, ?_, ?_⟩
    · intro hc
      simp [waitStep, hsome, hc]
    · intro hf
      simp [waitStep, hsome, hf]
    · intro hc hf
      have hterm : ¬ (inst.status = .completed ∨ inst.status = .failed) := by
        intro h
        rcases h with h | h
        · exact hc h
        · exact hf h
      constructor
      · intro v hv hv0 hgt
        subst hv
        have htr : timeoutTruthy (some v) = true := by
          simp [timeoutTruthy, hv0]
        simp [waitStep, hsome, hterm, htr, hgt]
      · intro hcase
        rcases hcase with h | h | ⟨v, hv, hle⟩
        · subst h
          simp [waitStep, hsome, hterm, timeoutTruthy]
        · subst h
          simp [waitStep, hsome, hterm, timeoutTruthy]
        · subst hv
          have : ¬ elapsed > v := Nat.not_lt.mpr hle
          simp [waitStep, hsome, hterm, this]
  · unfold waitStep
    cases h : alistLookup id s.activeAgents with
    | none => rfl
    | some inst =>
      dsimp only
      split
      · split <;> rfl
      · split <;> rfl

/-- Witness for C2 at concrete inputs: a completed instance yields its
result; a running instance with positive exceeded timeout yields Timeout;
an unknown id errors. -/
def c2DoneInst : AgentInstance :=
  { agentId := ⟨"claude", 7⟩
    agentName := "claude"
    project := "demo"
    task := "quick task"
    status := .completed
    worktreePath := none
    spawnTime := 0
    completionTime := some 2
    result := some { response := "done", tokensUsed := 10, cost := 1, timeTaken := 2 } }

def c2DoneState : FleetState :=
  { maxConcurrent := 10
    activeAgents := [(⟨"claude", 7⟩, c2DoneInst)]
    taskQueue := []
    nextUuid := 8 }

theorem C2_wait_typed_outcomes_witness :
    (waitStep c2DoneState ⟨"claude", 7⟩ none 0).1 = .ok c2DoneInst.result ∧
    (waitStep c2State ⟨"gemini", 3⟩ (some 5) 6).1 = .errTimeout ∧
    (waitStep c2State ⟨"missing", 0⟩ none 0).1 = .errUnknown := by
  refine ⟨?_, ?_, ?_⟩
  · exact ((C2_wait_typed_outcomes c2DoneState ⟨"claude", 7⟩ none 0).2.1 c2DoneInst
      (by decide)).1 rfl
  · exact (((C2_wait_typed_outcomes c2State ⟨"gemini", 3⟩ (some 5) 6).2.1 c2RunInst
      (by decide)).2.2 (by decide) (by decide)).1 5 rfl (by decide) (by decide)
  · exact (C2_wait_typed_outcomes c2State ⟨"missing", 0⟩ none 0).1 (by decide)

/-! ## Claim C10: `wait_for_all` (`fleet.py` lines 338-357)

`wait_for_all` iterates over a snapshot of the active ids and calls
`wait_for_agent` on each inside `try/except`: a per-agent failure is
printed and the id simply omitted from the returned dict.  In the
embedding each agent's wait is classified by `waitStep` against the final
scheduler state; an agent whose classification is `poll` would make the
source call block (not raise), which is outside the returned-map claims
below. -/

def waitForAll (s : FleetState) (timeout : Option Nat) (elapsed : Nat) :
    List (AgentId × Option AgentResult) :=
  (s.activeAgents.map Prod.fst).filterMap (fun id =>
    match (waitStep s id timeout elapsed).1 with
    | .ok r => some (id, r)
    | _ => none)

theorem waitStep_ok_elim (s : FleetState) (id : AgentId) (timeout : Option Nat)
    (elapsed : Nat) (r : Option AgentResult)
    (h : (waitStep s id timeout elapsed).1 = .ok r) :
    ∃ inst, alistLookup id s.activeAgents = some inst ∧
      inst.status = .completed ∧ r = inst.result := by
  unfold waitStep at h
  cases hl : alistLookup id s.activeAgents with
  | none => rw [hl] at h; simp at h
  | some inst =>
    rw [hl] at h
    dsimp only at h
    by_cases hterm : inst.status = .completed ∨ inst.status = .failed
    · rw [if_pos hterm] at h
      by_cases hf : inst.status = .failed
      · rw [if_pos hf] at h
        simp at h
      · rw [if_neg hf] at h
        have hc : inst.status = .completed := hterm.resolve_right hf
        simp at h
        exact ⟨inst, rfl, hc, h.symm⟩
    · rw [if_neg hterm] at h
      split at h <;> simp at h

/-- C10.
`wait_for_all` never raises: every per-agent wait failure (instance
Failed, unknown id, or timeout) is caught internally, the corresponding
agent id is absent from the returned map, and the map contains exactly
results of agents whose instance reached Completed (each value being that
instance's stored result). -/
theorem C10_wait_for_all_catches_failures (s : FleetState) (timeout : Option Nat)
    (elapsed : Nat) :
    (∀ id r, (id, r) ∈ waitForAll s timeout elapsed →
      ∃ inst, alistLookup id s.activeAgents = some inst ∧
        inst.status = .completed ∧ r = inst.result) ∧
    (∀ id, ((waitStep s id timeout elapsed).1 = .errUnknown ∨
        (∃ m, (waitStep s id timeout elapsed).1 = .errFailed m) ∨
        (waitStep s id timeout elapsed).1 = .errTimeout) →
      ∀ r, (id, r) ∉ waitForAll s timeout elapsed) := by
  constructor
  · intro id r hmem
    rcases List.mem_filterMap.mp hmem with ⟨id₁, _, hf⟩
    revert hf
    match hw : (waitStep s id₁ timeout elapsed).1 with
    | .ok r₁ =>
      intro hf
      simp at hf
      obtain ⟨hid, hr⟩ := hf
      subst hid
      subst hr
      exact waitStep_ok_elim s id₁ timeout elapsed r₁ hw
    | .errUnknown => intro hf; simp at hf
    | .errFailed m => intro hf; simp at hf
    | .errTimeout => intro hf; simp at hf
    | .poll => intro hf; simp at hf
  · intro id herr r hmem
    rcases List.mem_filterMap.mp hmem with ⟨id₁, _, hf⟩
    revert hf
    match hw : (waitStep s id₁ timeout elapsed).1 with
    | .ok r₁ =>
      intro hf
      simp at hf
      obtain ⟨hid, _⟩ := hf
      subst hid
      rcases herr with h | ⟨m, h⟩ | h <;> rw [hw] at h <;> exact WaitOutcome.noConfusion h
    | .errUnknown => intro hf; simp at hf
    | .errFailed m => intro hf; simp at hf
    | .errTimeout => intro hf; simp at hf
    | .poll => intro hf; simp at hf

/-- Witness for C10: a fleet with one completed, one failed and one running
instance; with a positive exceeded timeout the returned map contains
exactly the completed agent, and the failed agent (typed error) is absent. -/
def c10FailInst : AgentInstance :=
  { agentId := ⟨"gemini", 9⟩
    agentName := "gemini"
    project := "demo"
    task := "broken"
    status := .failed
    worktreePath := none
    spawnTime := 0
    completionTime := some 3
    error := some "boom" }

def c10State : FleetState :=
  { maxConcurrent := 10
    activeAgents :=
      [(⟨"claude", 7⟩, c2DoneInst), (⟨"gemini", 9⟩, c10FailInst), (⟨"gemini", 3⟩, c2RunInst)]
    taskQueue := []
    nextUuid := 10 }

theorem C10_wait_for_all_catches_failures_witness :
    (∃ inst, alistLookup ⟨"claude", 7⟩ c10State.activeAgents = some inst ∧
      inst.status = .completed ∧
      (some { response := "done", tokensUsed := 10, cost := 1, timeTaken := 2 } :
        Option AgentResult) = inst.result) ∧
    (∀ r, (⟨"gemini", 9⟩, r) ∉ waitForAll c10State (some 5) 6) := by
  constructor
  · exact (C10_wait_for_all_catches_failures c10State (some 5) 6).1 ⟨"claude", 7⟩
      (some { response := "done", tokensUsed := 10, cost := 1, timeTaken := 2 })
      (by decide)
  · exact (C10_wait_for_all_catches_failures c10State (some 5) 6).2 ⟨"gemini", 9⟩
      (Or.inr (Or.inl ⟨some "boom", by decide⟩))

/-! ## Claim C5: field/state invariants of `AgentInstance`

The operations that mutate one instance are:
* creation by `spawn_agent` (`fleet.py` 154-162): status Spawning, no
  result/error/completion_time;
* `_run_agent` (`fleet.py` 200-267): sets Running at entry; on driver
  return sets result, Completed and completion_time; on driver exception
  sets Failed, error and completion_time (result untouched, still unset at
  that point);
* `shutdown_agent` (`fleet.py` 373-378): sets status Shutdown and nothing
  else — in particular it does NOT set completion_time.

`Reach` enumerates the instance states reachable through these operations.
The guards on `run`/`complete`/`fail` record where in `_run_agent` the
interleaved `shutdown_agent` may have flipped the status: at those control
points result/error/completion_time are still unset.  Failures of the
SQLite registry write or of the logging calls are outside the model (the
driver call is the modelled exception source, as in the spec's worker
algorithm). -/

def mkSpawnedInstance (id : AgentId) (name project task : String)
    (wt : Option String) (t0 : Nat) : AgentInstance :=
  { agentId := id
    agentName := name
    project := project
    task := task
    status := .spawning
    worktreePath := wt
    spawnTime := t0 }

inductive Reach : AgentInstance → Prop
  | spawn (id : AgentId) (name project task : String) (wt : Option String) (t0 : Nat) :
      Reach (mkSpawnedInstance id name project task wt t0)
  | run {i : AgentInstance} :
      Reach i →
      (i.status = .spawning ∨ i.status = .shutdown) →
      i.result = none → i.error = none → i.completionTime = none →
      Reach { i with status := .running }
  | complete {i : AgentInstance} (r : AgentResult) (t : Nat) :
      Reach i →
      (i.status = .running ∨ i.status = .shutdown) →
      i.result = none → i.error = none → i.completionTime = none →
      Reach { i with status := .completed, result := some r, completionTime := some t }
  | fail {i : AgentInstance} (e : String) (t : Nat) :
      Reach i →
      (i.status = .running ∨ i.status = .shutdown) →
      i.result = none → i.error = none → i.completionTime = none →
      Reach { i with status := .failed, error := some e, completionTime := some t }
  | shutdownStep {i : AgentInstance} :
      Reach i →
      Reach { i with status := .shutdown }

/-- A terminal status in the sense of the claim: Completed, Failed or
Shutdown. -/
def terminalStatus : AgentStatus → Bool
  | .completed => true
  | .failed => true
  | .shutdown => true
  | _ => false

/-- The claim C5 as stated: over every reachable instance, `result` is
populated iff Completed, `error` iff Failed, and `completed_at` iff the
state is terminal (including Shutdown). -/
def ClaimC5Statement : Prop :=
  ∀ i, Reach i →
    (i.result.isSome = true ↔ i.status = .completed) ∧
    (i.error.isSome = true ↔ i.status = .failed) ∧
    (i.completionTime.isSome = true ↔ terminalStatus i.status = true)

/-- The concrete run refuting C5: spawn, start running, then shutdown. -/
def c5Spawned : AgentInstance :=
  mkSpawnedInstance ⟨"claude-code", 0⟩ "claude-code" "demo" "long task" none 0

def c5Shutdown : AgentInstance :=
  { { c5Spawned with status := .running } with status := .shutdown }

/-- C5, counterexample.
`shutdown_agent` marks the instance Shutdown (a terminal state in the
claim's sense) but never sets `completion_time`: after spawn → run →
shutdown the instance is terminal with `completion_time = None`, so
"`completed_at` is set iff the state is terminal" fails. -/
theorem C5_result_error_completion_counterexample :
    ¬ ClaimC5Statement := by
  intro h
  have hreach : Reach c5Shutdown := by
    refine Reach.shutdownStep (Reach.run (Reach.spawn _ _ _ _ _ _) ?_ rfl rfl rfl)
    exact Or.inl rfl
  have h5 := (h c5Shutdown hreach).2.2
  have hterm : terminalStatus c5Shutdown.status = true := rfl
  have : c5Shutdown.completionTime.isSome = true := h5.mpr hterm
  simp [c5Shutdown, c5Spawned, mkSpawnedInstance] at this

/-- C5, amended.
For every reachable instance: while non-terminal (Spawning/Running)
nothing is populated; Completed has the result and `completed_at` set and
no error; Failed has the error and `completed_at` set and no result;
result and error are never both populated; and `completed_at` is set
exactly when the run actually completed or failed — `shutdown` flips the
state to Shutdown without touching the other fields, so a Shutdown
instance carries whatever was set before (in particular `completed_at`
may be absent in the terminal Shutdown state). -/
theorem C5_result_error_completion_amended (i : AgentInstance) (h : Reach i) :
    ((i.status = .spawning ∨ i.status = .running) →
      i.result = none ∧ i.error = none ∧ i.completionTime = none) ∧
    (i.status = .completed →
      i.result.isSome = true ∧ i.error = none ∧ i.completionTime.isSome = true) ∧
    (i.status = .failed →
      i.error.isSome = true ∧ i.result = none ∧ i.completionTime.isSome = true) ∧
    (i.completionTime.isSome = true ↔ (i.result.isSome = true ∨ i.error.isSome = true)) := by
  induction h with
  | spawn id name project task wt t0 =>
    simp [mkSpawnedInstance]
  | run hr hs hres herr htime ih =>
    simp_all
  | complete r t hr hs hres herr htime ih =>
    simp_all
  | fail e t hr hs hres herr htime ih =>
    simp_all
  | shutdownStep hr ih =>
    obtain ⟨ih1, ih2, ih3, ih4⟩ := ih
    refine ⟨?_, ?_, ?_, ?_⟩
    · intro hcase
      rcases hcase with hcase | hcase <;> exact absurd hcase (by simp)
    · intro hcase
      exact absurd hcase (by simp)
    · intro hcase
      exact absurd hcase (by simp)
    · simpa using ih4

/-- Witness for C5 at a concrete reachable instance: a completed run. -/
def c5Completed : AgentInstance :=
  { { c5Spawned with status := .running } with
      status := .completed
      result := some { response := "ok", tokensUsed := 3, cost := 1, timeTaken := 1 }
      completionTime := some 4 }

theorem C5_result_error_completion_amended_witness :
    ((c5Completed.status = .spawning ∨ c5Completed.status = .running) →
      c5Completed.result = none ∧ c5Completed.error = none ∧
        c5Completed.completionTime = none) ∧
    (c5Completed.status = .completed →
      c5Completed.result.isSome = true ∧ c5Completed.error = none ∧
        c5Completed.completionTime.isSome = true) ∧
    (c5Completed.status = .failed →
      c5Completed.error.isSome = true ∧ c5Completed.result = none ∧
        c5Completed.completionTime.isSome = true) ∧
    (c5Completed.completionTime.isSome = true ↔
      (c5Completed.result.isSome = true ∨ c5Completed.error.isSome = true)) := by
  apply C5_result_error_completion_amended
  exact Reach.complete _ _ (Reach.run (Reach.spawn _ _ _ _ _ _) (Or.inl rfl) rfl rfl rfl)
    (Or.inl rfl) rfl rfl rfl

/-! ## Claim C3: order of lifecycle events for one admitted agent

`spawn_agent` (`fleet.py` 170-186) schedules, in this order,

1. `asyncio.create_task(self._run_agent(...))`, and then
2. `asyncio.create_task(hooks.agent_spawned(...))`,

and returns without awaiting either.  asyncio runs ready tasks in the
order they were created, each up to its next suspension point.
`_run_agent` (`fleet.py` 188-271) first emits AgentStarted (the emit runs
its subscribers before suspending), then awaits the driver, then emits the
terminal event.  The tiny cooperative scheduler below reproduces exactly
this: a FIFO of tasks, each a list of atomic actions; `emit` produces an
event, `yieldControl` is a suspension point that requeues the rest of the
task at the tail (the driver await). -/

inductive LifecycleEvent
  | spawned
  | started
  | completed
  | failed
deriving DecidableEq, Repr

inductive TaskAction
  | emit (e : LifecycleEvent)
  | yieldControl
deriving DecidableEq, Repr

def tasksSize (l : List (List TaskAction)) : Nat := (l.map List.length).sum

/-- Run the ready-task FIFO to quiescence, collecting emitted events in
order.  `fuel` dominates the number of steps; `runTasks` below supplies
enough fuel for the whole queue to drain. -/
def runTasksFuel : Nat → List (List TaskAction) → List LifecycleEvent
  | 0, _ => []
  | _ + 1, [] => []
  | fuel + 1, [] :: rest => runTasksFuel fuel rest
  | fuel + 1, (.emit e :: k) :: rest => e :: runTasksFuel fuel (k :: rest)
  | fuel + 1, (.yieldControl :: k) :: rest => runTasksFuel fuel (rest ++ [k])

def runTasks (l : List (List TaskAction)) : List LifecycleEvent :=
  runTasksFuel (2 * tasksSize l + l.length) l

/-- The observable actions of the `_run_agent` worker task: emit
AgentStarted, suspend on the driver call when the driver actually yields
(`driverYields`), then emit AgentCompleted or AgentFailed according to the
driver outcome. -/
def runAgentTask (driverYields driverOk : Bool) : List TaskAction :=
  [.emit .started] ++ (if driverYields then [.yieldControl] else []) ++
    [.emit (if driverOk then .completed else .failed)]

/-- The fire-and-forget `hooks.agent_spawned(...)` task. -/
def spawnedEmitTask : List TaskAction := [.emit .spawned]

/-- The per-agent lifecycle event trace produced by one `spawn_agent`
admission: the worker task is created first, the spawned-event task
second. -/
def spawnEmissionTrace (driverYields driverOk : Bool) : List LifecycleEvent :=
  runTasks [runAgentTask driverYields driverOk, spawnedEmitTask]

/-- C3, evaluation at the failing input.
The claim says the per-agent event sequence is strictly AgentSpawned,
AgentStarted, then one terminal event.  The code instead emits
AgentStarted first in every scenario: with a suspending driver the trace
is `[started, spawned, terminal]`, and with a driver that returns without
suspending it is `[started, terminal, spawned]`.  In no scenario does
AgentSpawned precede AgentStarted. -/
theorem C3_spawned_before_started_violated :
    spawnEmissionTrace true true = [.started, .spawned, .completed] ∧
    spawnEmissionTrace true false = [.started, .spawned, .failed] ∧
    spawnEmissionTrace false true = [.started, .completed, .spawned] ∧
    spawnEmissionTrace false false = [.started, .failed, .spawned] ∧
    (∀ driverYields driverOk : Bool,
      (spawnEmissionTrace driverYields driverOk).head? = some .started ∧
      (spawnEmissionTrace driverYields driverOk).head? ≠ some .spawned) := by
  decide

/-! ## Claim C4: subscriber isolation in `HookManager.emit`
(`observability/hooks.py` lines 57-84)

`emit` looks up the subscriber list registered for the event's kind and
iterates it.  A synchronous callback is called inside `try/except`: an
exception is printed and swallowed.  An asynchronous callback produces a
coroutine appended to `tasks`; the final
`asyncio.gather(*tasks, return_exceptions=True)` awaits them all and
converts exceptions into return values, so they do not propagate either.
A subscriber is modelled by whether it is async and whether its body
raises; invoking it yields its id and its optional exception. -/

structure Subscriber where
  sid : Nat
  isAsync : Bool
  raises : Bool
deriving DecidableEq, Repr

/-- Running one callback body: it is invoked (its id) and either returns
normally or raises. -/
def callOutcome (cb : Subscriber) : Nat × Option String :=
  (cb.sid, if cb.raises then some "subscriber raised" else none)

/-- What `emit` observably produced: which subscriber bodies ran, which
exceptions were merely logged, and whether an exception escaped to the
publisher. -/
structure EmitOutcome where
  invoked : List Nat
  logged : List String
  propagated : Option String
deriving DecidableEq, Repr

/-- The `for callback in self.subscribers[event_type]` loop: sync
callbacks run inline (exceptions caught and logged), async callbacks are
collected as coroutines. -/
def emitLoop : List Subscriber → List Nat × List String × List Subscriber
  | [] => ([], [], [])
  | cb :: rest =>
    let acc := emitLoop rest
    if cb.isAsync then
      (acc.1, acc.2.1, cb :: acc.2.2)
    else
      match callOutcome cb with
      | (n, none) => (n :: acc.1, acc.2.1, acc.2.2)
      | (n, some msg) => (n :: acc.1, msg :: acc.2.1, acc.2.2)

/-- `asyncio.gather(*tasks, return_exceptions=True)`: every coroutine
runs; exceptions are captured as values, never re-raised. -/
def gatherInvoke : List Subscriber → List Nat × List String
  | [] => ([], [])
  | cb :: rest =>
    let acc := gatherInvoke rest
    match callOutcome cb with
    | (n, none) => (n :: acc.1, acc.2)
    | (n, some msg) => (n :: acc.1, msg :: acc.2)

/-- `HookManager.emit` restricted to the subscribers registered for the
emitted event's kind. -/
def emitEvent (subs : List Subscriber) : EmitOutcome :=
  let loopRes := emitLoop subs
  let gatherRes := gatherInvoke loopRes.2.2
  { invoked := loopRes.1 ++ gatherRes.1
    logged := loopRes.2.1 ++ gatherRes.2
    propagated := none }

theorem emitLoop_invoked (subs : List Subscriber) :
    (emitLoop subs).1 = (subs.filter (fun cb => !cb.isAsync)).map Subscriber.sid ∧
    (emitLoop subs).2.2 = subs.filter (fun cb => cb.isAsync) := by
  induction subs with
  | nil => exact ⟨rfl, rfl⟩
  | cons cb rest ih =>
    by_cases ha : cb.isAsync
    · simp [emitLoop, ha, ih.1, ih.2]
    · by_cases hr : cb.raises <;>
        simp [emitLoop, ha, callOutcome, hr, ih.1, ih.2]

theorem gatherInvoke_invoked (tasks : List Subscriber) :
    (gatherInvoke tasks).1 = tasks.map Subscriber.sid := by
  induction tasks with
  | nil => rfl
  | cons cb rest ih =>
    by_cases hr : cb.raises <;> simp [gatherInvoke, callOutcome, hr, ih]

/-- C4.
For every event and every list of subscribers registered for its kind:
`emit` returns normally (no exception reaches the publisher), and every
subscriber body is invoked — in particular, one subscriber raising does
not prevent any other subscriber from running. -/
theorem C4_emit_isolates_subscriber_failures (subs : List Subscriber) :
    (emitEvent subs).propagated = none ∧
    (∀ cb ∈ subs, cb.sid ∈ (emitEvent subs).invoked) := by
  refine ⟨rfl, ?_⟩
  intro cb hcb
  have hinv : (emitEvent subs).invoked =
      (subs.filter (fun c => !c.isAsync)).map Subscriber.sid ++
      (subs.filter (fun c => c.isAsync)).map Subscriber.sid := by
    show (emitLoop subs).1 ++ (gatherInvoke (emitLoop subs).2.2).1 = _
    rw [gatherInvoke_invoked, (emitLoop_invoked subs).1, (emitLoop_invoked subs).2]
  rw [hinv]
  by_cases ha : cb.isAsync
  · refine List.mem_append_right _ ?_
    exact List.mem_map_of_mem _ (List.mem_filter.mpr ⟨hcb, by simp [ha]⟩)
  · refine List.mem_append_left _ ?_
    exact List.mem_map_of_mem _ (List.mem_filter.mpr ⟨hcb, by simp [ha]⟩)

/-- Witness for C4, mirroring the spec's scenario: two subscribers for one
kind, the first (synchronous) raises; emit still returns without
propagating and the second subscriber is invoked. -/
theorem C4_emit_isolates_subscriber_failures_witness :
    (emitEvent [⟨0, false, true⟩, ⟨1, false, false⟩]).propagated = none ∧
    (1 : Nat) ∈ (emitEvent [⟨0, false, true⟩, ⟨1, false, false⟩]).invoked := by
  refine ⟨(C4_emit_isolates_subscriber_failures [⟨0, false, true⟩, ⟨1, false, false⟩]).1, ?_⟩
  exact (C4_emit_isolates_subscriber_failures [⟨0, false, true⟩, ⟨1, false, false⟩]).2
    ⟨1, false, false⟩ (by decide)

/-! ## Worktree manager (`worktree.py`)

Subprocess git invocations are modelled by a `GitEnv` of outcomes, and
every embedded operation also returns the list of git commands it ran, so
claims about which VCS commands a call performs are expressible.  Times
are abstract integers measured in hours (the unit of
`cleanup_after_hours`). -/

structure Worktree where
  path : String
  branch : String
  agentId : String
  createdAt : Int
  locked : Bool
deriving DecidableEq, Repr

structure WorktreeManagerState where
  cleanupAfterHours : Int
  activeWorktrees : List (String × Worktree)
deriving DecidableEq, Repr

inductive GitCall
  | revParseGitDir
  | revParseToplevel
  | worktreeAdd
  | worktreeAddRetry
  | worktreeRemove
deriving DecidableEq, Repr

inductive CmdOutcome
  | ok
  | err
  | timeoutExpired
deriving DecidableEq, Repr

/-- Outcomes of the git subprocesses, per argument.  `isRepo` is the
boolean result of `is_git_repo` (its internal try/except already folds
exceptions into `False`); `showToplevel = none` covers both a nonzero exit
and an exception of `git rev-parse --show-toplevel`; `addOutcome` and
`addRetryOutcome` are the two `git worktree add` attempts (with and
without `-b`); `removeOk` is the exit status of `git worktree remove`. -/
structure GitEnv where
  isRepo : String → Bool
  showToplevel : String → Option String
  pathExists : String → Bool
  addOutcome : String → String → CmdOutcome
  addRetryOutcome : String → String → CmdOutcome
  removeOk : String → Bool

/-- `WorktreeManager.get_repo_root` (`worktree.py` 54-73): re-checks
`is_git_repo`, then asks for the toplevel. -/
def getRepoRoot (env : GitEnv) (path : String) : Option String × List GitCall :=
  if env.isRepo path = false then (none, [.revParseGitDir])
  else (env.showToplevel path, [.revParseGitDir, .revParseToplevel])

/-- The worktree directory `<repo_root>/.agent-worktrees/<agent_id>`. -/
def worktreePathOf (root agentId : String) : String :=
  root ++ "/.agent-worktrees/" ++ agentId

/-- The tracking entry `create_worktree` records on success
(`worktree.py` 143-150): `locked=True`, created now. -/
def trackWorktree (st : WorktreeManagerState) (agentId wtPath branch : String)
    (now : Int) : WorktreeManagerState :=
  { st with
      activeWorktrees :=
        alistInsert agentId
          { path := wtPath, branch := branch, agentId := agentId,
            createdAt := now, locked := true }
          st.activeWorktrees }

/-- The `try` block of `create_worktree` (`worktree.py` 117-162): run
`git worktree add -b`; on a nonzero exit retry without `-b`; on success
track the worktree and return its path; timeouts and errors become the
`None` failure sentinel. -/
def addAttempt (env : GitEnv) (st : WorktreeManagerState)
    (agentId wtPath branch : String) (now : Int) (calls : List GitCall) :
    Option String × WorktreeManagerState × List GitCall :=
  match env.addOutcome wtPath branch with
  | .ok =>
    (some wtPath, trackWorktree st agentId wtPath branch now, calls ++ [.worktreeAdd])
  | .timeoutExpired => (none, st, calls ++ [.worktreeAdd])
  | .err =>
    match env.addRetryOutcome wtPath branch with
    | .ok =>
      (some wtPath, trackWorktree st agentId wtPath branch now,
        calls ++ [.worktreeAdd, .worktreeAddRetry])
    | _ => (none, st, calls ++ [.worktreeAdd, .worktreeAddRetry])

/-- `WorktreeManager.create_worktree` (`worktree.py` 75-162).  Returns the
optional created path (`None` is the failure sentinel), the updated
tracking state, and the git commands invoked.  Mirrors the source order:
repo check, root lookup, early return of an already-existing target path
(without tracking and without running `git worktree add`), then the add
attempt. -/
def createWorktree (env : GitEnv) (st : WorktreeManagerState)
    (repoPath agentId : String) (branch? : Option String) (now : Int) :
    Option String × WorktreeManagerState × List GitCall :=
  if env.isRepo repoPath = false then (none, st, [.revParseGitDir])
  else
    match (getRepoRoot env repoPath).1 with
    | none => (none, st, .revParseGitDir :: (getRepoRoot env repoPath).2)
    | some root =>
      if env.pathExists (worktreePathOf root agentId) = true then
        (some (worktreePathOf root agentId), st,
          .revParseGitDir :: (getRepoRoot env repoPath).2)
      else
        addAttempt env st agentId (worktreePathOf root agentId)
          (branch?.getD ("agent-" ++ agentId)) now
          (.revParseGitDir :: (getRepoRoot env repoPath).2)

/-- `WorktreeManager.get_or_create_worktree` (`worktree.py` 306-348):
repo check first (non-repositories fall back to `repo_path` unchanged),
then the tracked-entry lookup, then delegation to `create_worktree` with
fallback to `repo_path` when it fails. -/
def getOrCreateWorktree (env : GitEnv) (st : WorktreeManagerState)
    (repoPath agentId : String) (branch? : Option String) (now : Int) :
    String × WorktreeManagerState × List GitCall :=
  if env.isRepo repoPath = false then (repoPath, st, [.revParseGitDir])
  else
    match alistLookup agentId st.activeWorktrees with
    | some wt => (wt.path, st, [.revParseGitDir])
    | none =>
      let res := createWorktree env st repoPath agentId branch? now
      match res.1 with
      | none => (repoPath, res.2.1, .revParseGitDir :: res.2.2)
      | some p => (p, res.2.1, .revParseGitDir :: res.2.2)

/-- `WorktreeManager.remove_worktree` (`worktree.py` 164-209): missing
entries are a no-op; a locked worktree is refused unless `force`; the git
removal, when it succeeds, drops the tracking entry. -/
def removeWorktree (env : GitEnv) (st : WorktreeManagerState)
    (agentId : String) (force : Bool) : WorktreeManagerState × List GitCall :=
  match alistLookup agentId st.activeWorktrees with
  | none => (st, [])
  | some wt =>
    if wt.locked && !force then (st, [])
    else if env.removeOk wt.path then
      ({ st with activeWorktrees := alistErase agentId st.activeWorktrees },
        [.worktreeRemove])
    else (st, [.worktreeRemove])

/-- The loop body of `cleanup_old_worktrees`: skip locked entries, remove
unlocked ones older than the cutoff. -/
def cleanupStep (env : GitEnv) (cutoff : Int) (acc : WorktreeManagerState)
    (agentId : String) : WorktreeManagerState :=
  match alistLookup agentId acc.activeWorktrees with
  | none => acc
  | some wt =>
    if wt.locked then acc
    else if wt.createdAt < cutoff then (removeWorktree env acc agentId false).1
    else acc

/-- `WorktreeManager.cleanup_old_worktrees` (`worktree.py` 217-252):
early exits when the path is not a repo, has no root, or has no worktree
base directory; otherwise iterates over a snapshot of the tracked ids with
`cutoff = now - cleanup_after_hours`. -/
def cleanupOldWorktrees (env : GitEnv) (st : WorktreeManagerState)
    (repoPath : String) (now : Int) : WorktreeManagerState :=
  if env.isRepo repoPath = false then st
  else
    match (getRepoRoot env repoPath).1 with
    | none => st
    | some root =>
      if env.pathExists (root ++ "/.agent-worktrees") = false then st
      else
        (st.activeWorktrees.map Prod.fst).foldl
          (cleanupStep env (now - st.cleanupAfterHours)) st

theorem removeWorktree_lookup_ne (env : GitEnv) (st : WorktreeManagerState)
    (agentId id₀ : String) (force : Bool) (h : id₀ ≠ agentId) :
    alistLookup id₀ (removeWorktree env st agentId force).1.activeWorktrees =
      alistLookup id₀ st.activeWorktrees := by
  unfold removeWorktree
  cases hl : alistLookup agentId st.activeWorktrees with
  | none => rfl
  | some wt =>
    dsimp only
    split
    · rfl
    · split
      · exact alistLookup_erase_ne _ _ _ h
      · rfl

theorem cleanupStep_lookup_ne (env : GitEnv) (cutoff : Int)
    (acc : WorktreeManagerState) (agentId id₀ : String) (h : id₀ ≠ agentId) :
    alistLookup id₀ (cleanupStep env cutoff acc agentId).activeWorktrees =
      alistLookup id₀ acc.activeWorktrees := by
  unfold cleanupStep
  cases hl : alistLookup agentId acc.activeWorktrees with
  | none => rfl
  | some wt =>
    dsimp only
    split
    · rfl
    · split
      · exact removeWorktree_lookup_ne env acc agentId id₀ false h
      · rfl

theorem cleanupFold_locked (env : GitEnv) (cutoff : Int) (ids : List String)
    (acc : WorktreeManagerState) (id₀ : String) (wt : Worktree)
    (hl : alistLookup id₀ acc.activeWorktrees = some wt) (hlock : wt.locked = true) :
    alistLookup id₀ (ids.foldl (cleanupStep env cutoff) acc).activeWorktrees = some wt := by
  induction ids generalizing acc with
  | nil => exact hl
  | cons id ids ih =>
    by_cases hid : id₀ = id
    · subst hid
      have hstep : cleanupStep env cutoff acc id₀ = acc := by
        unfold cleanupStep
        rw [hl]
        simp [hlock]
      rw [List.foldl_cons, hstep]
      exact ih acc hl
    · rw [List.foldl_cons]
      exact ih _ ((cleanupStep_lookup_ne env cutoff acc id id₀ hid).trans hl)

theorem cleanupFold_removed (env : GitEnv) (cutoff : Int) (ids : List String)
    (acc : WorktreeManagerState) (id₀ : String) (wt : Worktree)
    (hl : alistLookup id₀ acc.activeWorktrees = some wt)
    (hnone : alistLookup id₀ (ids.foldl (cleanupStep env cutoff) acc).activeWorktrees = none) :
    wt.locked = false ∧ wt.createdAt < cutoff := by
  induction ids generalizing acc with
  | nil =>
    rw [List.foldl_nil] at hnone
    rw [hl] at hnone
    exact Option.noConfusion hnone
  | cons id ids ih =>
    rw [List.foldl_cons] at hnone
    by_cases hid : id₀ = id
    · subst hid
      by_cases hlock : wt.locked = true
      · have hstep : cleanupStep env cutoff acc id₀ = acc := by
          unfold cleanupStep
          rw [hl]
          simp [hlock]
        rw [hstep] at hnone
        exact ih acc hl hnone
      · have hlock₀ : wt.locked = false := Bool.eq_false_iff.mpr hlock
        by_cases hold : wt.createdAt < cutoff
        · exact ⟨hlock₀, hold⟩
        · have hstep : cleanupStep env cutoff acc id₀ = acc := by
            unfold cleanupStep
            rw [hl]
            simp [hlock₀, hold]
          rw [hstep] at hnone
          exact ih acc hl hnone
    · have hkeep := cleanupStep_lookup_ne env cutoff acc id id₀ hid
      exact ih _ (hkeep.trans hl) hnone

/-- C7.
`cleanup_old` never removes a locked worktree, regardless of its age: a
locked tracked entry survives the sweep untouched.  Conversely, any entry
that the sweep removes was unlocked and strictly older than
`now - cleanup_after` (default 24 hours). -/
theorem C7_cleanup_never_removes_locked (env : GitEnv) (st : WorktreeManagerState)
    (repoPath : String) (now : Int) :
    (∀ id wt, alistLookup id st.activeWorktrees = some wt → wt.locked = true →
      alistLookup id (cleanupOldWorktrees env st repoPath now).activeWorktrees = some wt) ∧
    (∀ id wt, alistLookup id st.activeWorktrees = some wt →
      alistLookup id (cleanupOldWorktrees env st repoPath now).activeWorktrees = none →
      wt.locked = false ∧ wt.createdAt < now - st.cleanupAfterHours) := by
  unfold cleanupOldWorktrees
  split
  · exact ⟨fun id wt hl _ => hl,
      fun id wt hl hnone => absurd (hl.symm.trans hnone) (by simp)⟩
  · cases hroot : (getRepoRoot env repoPath).1 with
    | none =>
      exact ⟨fun id wt hl _ => hl,
        fun id wt hl hnone => absurd (hl.symm.trans hnone) (by simp)⟩
    | some root =>
      dsimp only
      split
      · exact ⟨fun id wt hl _ => hl,
          fun id wt hl hnone => absurd (hl.symm.trans hnone) (by simp)⟩
      · exact ⟨fun id wt hl hlock => cleanupFold_locked env _ _ st id wt hl hlock,
          fun id wt hl hnone => cleanupFold_removed env _ _ st id wt hl hnone⟩

/-- Concrete environment for the worktree witnesses: everything succeeds. -/
def happyGitEnv : GitEnv :=
  { isRepo := fun _ => true
    showToplevel := fun _ => some "/repo"
    pathExists := fun p => p = "/repo/.agent-worktrees"
    addOutcome := fun _ _ => .ok
    addRetryOutcome := fun _ _ => .ok
    removeOk := fun _ => true }

def c7LockedWt : Worktree :=
  { path := "/repo/.agent-worktrees/a1", branch := "agent-a1", agentId := "a1",
    createdAt := 0, locked := true }

def c7StaleWt : Worktree :=
  { path := "/repo/.agent-worktrees/a2", branch := "agent-a2", agentId := "a2",
    createdAt := 0, locked := false }

def c7State : WorktreeManagerState :=
  { cleanupAfterHours := 24
    activeWorktrees := [("a1", c7LockedWt), ("a2", c7StaleWt)] }

/-- Witness for C7: at time 100 h (cutoff 76 h) the locked worktree of age
100 h survives the sweep while the unlocked one of the same age is
removed. -/
theorem C7_cleanup_never_removes_locked_witness :
    alistLookup "a1" (cleanupOldWorktrees happyGitEnv c7State "/repo" 100).activeWorktrees
      = some c7LockedWt ∧
    (c7StaleWt.locked = false ∧ c7StaleWt.createdAt < 100 - c7State.cleanupAfterHours) := by
  constructor
  · exact (C7_cleanup_never_removes_locked happyGitEnv c7State "/repo" 100).1 "a1"
      c7LockedWt (by decide) rfl
  · exact (C7_cleanup_never_removes_locked happyGitEnv c7State "/repo" 100).2 "a2"
      c7StaleWt (by decide) (by decide)

theorem addAttempt_none_state (env : GitEnv) (st : WorktreeManagerState)
    (agentId wtPath branch : String) (now : Int) (calls : List GitCall)
    (h : (addAttempt env st agentId wtPath branch now calls).1 = none) :
    (addAttempt env st agentId wtPath branch now calls).2.1 = st := by
  unfold addAttempt at h ⊢
  cases h₁ : env.addOutcome wtPath branch with
  | ok => rw [h₁] at h; simp at h
  | timeoutExpired => rfl
  | err =>
    rw [h₁] at h
    cases h₂ : env.addRetryOutcome wtPath branch with
    | ok => rw [h₂] at h; simp at h
    | timeoutExpired => rfl
    | err => rfl

theorem addAttempt_fst_now (env : GitEnv) (st : WorktreeManagerState)
    (agentId wtPath branch : String) (n₁ n₂ : Int) (calls : List GitCall) :
    (addAttempt env st agentId wtPath branch n₁ calls).1 =
      (addAttempt env st agentId wtPath branch n₂ calls).1 := by
  unfold addAttempt
  cases env.addOutcome wtPath branch with
  | ok => rfl
  | timeoutExpired => rfl
  | err => cases env.addRetryOutcome wtPath branch <;> rfl

theorem addAttempt_some (env : GitEnv) (st : WorktreeManagerState)
    (agentId wtPath branch : String) (now : Int) (calls : List GitCall) (p : String)
    (h : (addAttempt env st agentId wtPath branch now calls).1 = some p) :
    p = wtPath ∧
    ∃ wt, alistLookup agentId
        (addAttempt env st agentId wtPath branch now calls).2.1.activeWorktrees = some wt ∧
      wt.path = p := by
  unfold addAttempt at h ⊢
  cases h₁ : env.addOutcome wtPath branch with
  | ok =>
    rw [h₁] at h
    simp at h
    subst h
    exact ⟨rfl, _, alistLookup_insert_self _ _ _, rfl⟩
  | timeoutExpired => rw [h₁] at h; simp at h
  | err =>
    rw [h₁] at h
    cases h₂ : env.addRetryOutcome wtPath branch with
    | ok =>
      rw [h₂] at h
      simp at h
      subst h
      exact ⟨rfl, _, alistLookup_insert_self _ _ _, rfl⟩
    | timeoutExpired => rw [h₂] at h; simp at h
    | err => rw [h₂] at h; simp at h

theorem createWorktree_none_state (env : GitEnv) (st : WorktreeManagerState)
    (repoPath agentId : String) (branch? : Option String) (now : Int)
    (h : (createWorktree env st repoPath agentId branch? now).1 = none) :
    (createWorktree env st repoPath agentId branch? now).2.1 = st := by
  unfold createWorktree at h ⊢
  by_cases h₁ : env.isRepo repoPath = false
  · rw [if_pos h₁]
  · rw [if_neg h₁] at h ⊢
    cases h₂ : (getRepoRoot env repoPath).1 with
    | none => rfl
    | some root =>
      rw [h₂] at h
      dsimp only at h ⊢
      by_cases h₃ : env.pathExists (worktreePathOf root agentId) = true
      · rw [if_pos h₃] at h; simp at h
      · rw [if_neg h₃] at h ⊢
        exact addAttempt_none_state _ _ _ _ _ _ _ h

theorem createWorktree_fst_now (env : GitEnv) (st : WorktreeManagerState)
    (repoPath agentId : String) (branch? : Option String) (n₁ n₂ : Int) :
    (createWorktree env st repoPath agentId branch? n₁).1 =
      (createWorktree env st repoPath agentId branch? n₂).1 := by
  unfold createWorktree
  by_cases h₁ : env.isRepo repoPath = false
  · simp only [if_pos h₁]
  · simp only [if_neg h₁]
    cases h₂ : (getRepoRoot env repoPath).1 with
    | none => rfl
    | some root =>
      dsimp only
      by_cases h₃ : env.pathExists (worktreePathOf root agentId) = true
      · simp only [if_pos h₃]
      · simp only [if_neg h₃]
        exact addAttempt_fst_now _ _ _ _ _ _ _ _

theorem createWorktree_some_cases (env : GitEnv) (st : WorktreeManagerState)
    (repoPath agentId : String) (branch? : Option String) (now : Int) (p : String)
    (h : (createWorktree env st repoPath agentId branch? now).1 = some p) :
    (∃ wt, alistLookup agentId
        (createWorktree env st repoPath agentId branch? now).2.1.activeWorktrees = some wt ∧
      wt.path = p) ∨
    ((createWorktree env st repoPath agentId branch? now).2.1 = st ∧
      ∀ m, (createWorktree env st repoPath agentId branch? m).1 = some p) := by
  unfold createWorktree at h ⊢
  by_cases h₁ : env.isRepo repoPath = false
  · rw [if_pos h₁] at h; simp at h
  · rw [if_neg h₁] at h ⊢
    cases h₂ : (getRepoRoot env repoPath).1 with
    | none => rw [h₂] at h; simp at h
    | some root =>
      rw [h₂] at h
      dsimp only at h ⊢
      by_cases h₃ : env.pathExists (worktreePathOf root agentId) = true
      · rw [if_pos h₃] at h ⊢
        simp at h
        refine Or.inr ⟨rfl, ?_⟩
        intro m
        rw [if_neg h₁, if_pos h₃, h]
      · rw [if_neg h₃] at h ⊢
        obtain ⟨hp, wt, hwt, hpath⟩ := addAttempt_some _ _ _ _ _ _ _ _ h
        exact Or.inl ⟨wt, hwt, hpath⟩

/-- C6, counterexample.
The claim says the second `get_or_create` call with the same `agent_id`
"does not invoke the VCS".  In the source the very first statement of
`get_or_create_worktree` is the `is_git_repo` check, which runs
`git rev-parse --git-dir` as a subprocess; so even when the worktree is
already tracked the second call performs one VCS invocation.  Concretely:
after a first call that creates and tracks a worktree, the second call's
git-command list is `[revParseGitDir]`, which is not empty. -/
theorem C6_second_call_invokes_vcs_counterexample :
    (getOrCreateWorktree happyGitEnv
        (getOrCreateWorktree happyGitEnv ⟨24, []⟩ "/repo" "a9" none 0).2.1
        "/repo" "a9" none 1).2.2 = [.revParseGitDir] ∧
    (getOrCreateWorktree happyGitEnv
        (getOrCreateWorktree happyGitEnv ⟨24, []⟩ "/repo" "a9" none 0).2.1
        "/repo" "a9" none 1).2.2 ≠ ([] : List GitCall) := by
  constructor
  · decide
  · decide

/-- C6, amended.
`get_or_create_worktree` called twice with the same `agent_id` returns the
same path both times, and the second call runs no worktree-creation VCS
command — only the single `git rev-parse` repository check (provided the
first call left a tracked entry; the repository check itself is always
re-run, contrary to the claim's "does not invoke the VCS").  When
`repo_path` is not a repository the call returns `repo_path` unchanged,
and when creation fails it returns `repo_path` as a fallback. -/
theorem C6_get_or_create_idempotent (env : GitEnv) (st : WorktreeManagerState)
    (repoPath agentId : String) (branch? : Option String) (now₁ now₂ : Int) :
    ((getOrCreateWorktree env
        (getOrCreateWorktree env st repoPath agentId branch? now₁).2.1
        repoPath agentId branch? now₂).1 =
      (getOrCreateWorktree env st repoPath agentId branch? now₁).1) ∧
    (env.isRepo repoPath = false →
      (getOrCreateWorktree env st repoPath agentId branch? now₁).1 = repoPath ∧
      (getOrCreateWorktree env st repoPath agentId branch? now₁).2.1 = st ∧
      (getOrCreateWorktree env st repoPath agentId branch? now₁).2.2 = [.revParseGitDir]) ∧
    (∀ wt, env.isRepo repoPath = true →
      alistLookup agentId
        (getOrCreateWorktree env st repoPath agentId branch? now₁).2.1.activeWorktrees
        = some wt →
      (getOrCreateWorktree env
          (getOrCreateWorktree env st repoPath agentId branch? now₁).2.1
          repoPath agentId branch? now₂).2.2 = [.revParseGitDir] ∧
      (getOrCreateWorktree env
          (getOrCreateWorktree env st repoPath agentId branch? now₁).2.1
          repoPath agentId branch? now₂).1 = wt.path) ∧
    (env.isRepo repoPath = true →
      alistLookup agentId st.activeWorktrees = none →
      (createWorktree env st repoPath agentId branch? now₁).1 = none →
      (getOrCreateWorktree env st repoPath agentId branch? now₁).1 = repoPath) := by
  by_cases hrepo : env.isRepo repoPath = false
  · refine ⟨?_, ?_, ?_, ?_⟩
    · simp [getOrCreateWorktree, hrepo]
    · intro _
      simp [getOrCreateWorktree, hrepo]
    · intro wt habs _
      rw [habs] at hrepo
      simp at hrepo
    · intro habs _ _
      rw [habs] at hrepo
      simp at hrepo
  · have hrepo₁ : env.isRepo repoPath = true := by
      cases h : env.isRepo repoPath
      · exact absurd h hrepo
      · rfl
    have hmain :
        (getOrCreateWorktree env
            (getOrCreateWorktree env st repoPath agentId branch? now₁).2.1
            repoPath agentId branch? now₂).1 =
          (getOrCreateWorktree env st repoPath agentId branch? now₁).1 ∧
        (∀ wt,
          alistLookup agentId
            (getOrCreateWorktree env st repoPath agentId branch? now₁).2.1.activeWorktrees
            = some wt →
          (getOrCreateWorktree env
              (getOrCreateWorktree env st repoPath agentId branch? now₁).2.1
              repoPath agentId branch? now₂).2.2 = [.revParseGitDir] ∧
          (getOrCreateWorktree env
              (getOrCreateWorktree env st repoPath agentId branch? now₁).2.1
              repoPath agentId branch? now₂).1 = wt.path) := by
      cases hlook : alistLookup agentId st.activeWorktrees with
      | some wt =>
        have h1 : getOrCreateWorktree env st repoPath agentId branch? now₁ =
            (wt.path, st, [.revParseGitDir]) := by
          simp only [getOrCreateWorktree]
          rw [if_neg hrepo, hlook]
        rw [h1]
        dsimp only
        constructor
        · simp only [getOrCreateWorktree]
          rw [if_neg hrepo, hlook]
        · intro wt₁ hw₁
          rw [hlook] at hw₁
          have hwt : wt = wt₁ := Option.some.injEq _ _ ▸ hw₁
          subst hwt
          constructor
          · simp only [getOrCreateWorktree]
            rw [if_neg hrepo, hlook]
          · simp only [getOrCreateWorktree]
            rw [if_neg hrepo, hlook]
      | none =>
        cases hc : (createWorktree env st repoPath agentId branch? now₁).1 with
        | none =>
          have hst : (createWorktree env st repoPath agentId branch? now₁).2.1 = st :=
            createWorktree_none_state _ _ _ _ _ _ hc
          have h1 : getOrCreateWorktree env st repoPath agentId branch? now₁ =
              (repoPath, st,
                .revParseGitDir :: (createWorktree env st repoPath agentId branch? now₁).2.2) := by
            simp only [getOrCreateWorktree]
            rw [if_neg hrepo, hlook, hc, hst]
          rw [h1]
          dsimp only
          have hc₂ : (createWorktree env st repoPath agentId branch? now₂).1 = none :=
            (createWorktree_fst_now env st repoPath agentId branch? now₂ now₁).trans hc
          constructor
          · simp only [getOrCreateWorktree]
            rw [if_neg hrepo, hlook, hc₂]
          · intro wt₁ hw₁
            rw [hlook] at hw₁
            exact Option.noConfusion hw₁
        | some p =>
          have h1 : getOrCreateWorktree env st repoPath agentId branch? now₁ =
              (p, (createWorktree env st repoPath agentId branch? now₁).2.1,
                .revParseGitDir :: (createWorktree env st repoPath agentId branch? now₁).2.2) := by
            simp only [getOrCreateWorktree]
            rw [if_neg hrepo, hlook, hc]
          rcases createWorktree_some_cases env st repoPath agentId branch? now₁ p hc
            with ⟨wt, hwt, hpath⟩ | ⟨hst, hall⟩
          · have h2 : getOrCreateWorktree env
                (getOrCreateWorktree env st repoPath agentId branch? now₁).2.1
                repoPath agentId branch? now₂ =
                (wt.path, (createWorktree env st repoPath agentId branch? now₁).2.1,
                  [.revParseGitDir]) := by
              rw [h1]
              dsimp only
              simp only [getOrCreateWorktree]
              rw [if_neg hrepo, hwt]
            rw [h2, h1]
            dsimp only
            refine ⟨hpath, ?_⟩
            intro wt₁ hw₁
            rw [hwt] at hw₁
            have : wt = wt₁ := Option.some.injEq _ _ ▸ hw₁
            subst this
            exact ⟨rfl, rfl⟩
          · have h2 : getOrCreateWorktree env
                (getOrCreateWorktree env st repoPath agentId branch? now₁).2.1
                repoPath agentId branch? now₂ =
                (p, (createWorktree env st repoPath agentId branch? now₂).2.1,
                  .revParseGitDir :: (createWorktree env st repoPath agentId branch? now₂).2.2) := by
              rw [h1]
              dsimp only
              rw [hst]
              simp only [getOrCreateWorktree]
              rw [if_neg hrepo, hlook, hall now₂]
            rw [h2, h1]
            dsimp only
            refine ⟨rfl, ?_⟩
            intro wt₁ hw₁
            rw [hst] at hw₁
            rw [hlook] at hw₁
            exact Option.noConfusion hw₁
    refine ⟨hmain.1, ?_, ?_, ?_⟩
    · intro habs
      rw [habs] at hrepo₁
      exact Bool.noConfusion hrepo₁
    · intro wt _ hw
      exact hmain.2 wt hw
    · intro _ hlook hc
      simp [getOrCreateWorktree, hrepo, hlook, hc]

/-- Witness for C6: on a repository where creation succeeds, the second
call with the same agent id performs only the repository check and returns
the same tracked path. -/
theorem C6_get_or_create_idempotent_witness :
    (getOrCreateWorktree happyGitEnv
        (getOrCreateWorktree happyGitEnv ⟨24, []⟩ "/repo" "a9" none 0).2.1
        "/repo" "a9" none 1).2.2 = [.revParseGitDir] ∧
    (getOrCreateWorktree happyGitEnv
        (getOrCreateWorktree happyGitEnv ⟨24, []⟩ "/repo" "a9" none 0).2.1
        "/repo" "a9" none 1).1 =
      ({ path := "/repo/.agent-worktrees/a9", branch := "agent-a9", agentId := "a9",
         createdAt := 0, locked := true } : Worktree).path := by
  exact (C6_get_or_create_idempotent happyGitEnv ⟨24, []⟩ "/repo" "a9" none 0 1).2.2.1
    { path := "/repo/.agent-worktrees/a9", branch := "agent-a9", agentId := "a9",
      createdAt := 0, locked := true } rfl (by decide)

/-! ## Claim C8: failure modes of `create_worktree` -/

/-- Environment in which the target worktree path already exists on disk. -/
def existsGitEnv : GitEnv :=
  { happyGitEnv with pathExists := fun _ => true }

/-- C8, counterexample.
The claim says `create` fails with a typed error when the target worktree
path already exists.  In the source (`worktree.py` 108-111) that case
instead returns the existing path — indistinguishable from success (and
`get_or_create` treats it as success) — without invoking `git worktree
add` and without tracking an entry. -/
theorem C8_create_existing_path_counterexample :
    (createWorktree existsGitEnv ⟨24, []⟩ "/repo" "a7" none 0).1 =
      some "/repo/.agent-worktrees/a7" ∧
    (createWorktree existsGitEnv ⟨24, []⟩ "/repo" "a7" none 0).1 ≠ none ∧
    .worktreeAdd ∉ (createWorktree existsGitEnv ⟨24, []⟩ "/repo" "a7" none 0).2.2 := by
  refine ⟨by decide, by decide, by decide⟩

/-- C8, amended.
`create_worktree` fails (returns the `None` failure sentinel) when the
given path is not a repository, when the repository root cannot be
resolved, when `git worktree add` times out, and when it errors and the
retry without `-b` does not succeed; in none of those cases does it report
success.  When the target worktree path already exists, however, it
reports success by returning the existing path, leaving the tracking state
untouched. -/
theorem C8_create_failure_modes (env : GitEnv) (st : WorktreeManagerState)
    (repoPath agentId : String) (branch? : Option String) (now : Int) :
    (env.isRepo repoPath = false →
      (createWorktree env st repoPath agentId branch? now).1 = none) ∧
    (env.isRepo repoPath = true → (getRepoRoot env repoPath).1 = none →
      (createWorktree env st repoPath agentId branch? now).1 = none) ∧
    (∀ root, (getRepoRoot env repoPath).1 = some root →
      env.pathExists (worktreePathOf root agentId) = false →
      env.addOutcome (worktreePathOf root agentId)
          (branch?.getD ("agent-" ++ agentId)) = .timeoutExpired →
      (createWorktree env st repoPath agentId branch? now).1 = none) ∧
    (∀ root, (getRepoRoot env repoPath).1 = some root →
      env.pathExists (worktreePathOf root agentId) = false →
      env.addOutcome (worktreePathOf root agentId)
          (branch?.getD ("agent-" ++ agentId)) = .err →
      env.addRetryOutcome (worktreePathOf root agentId)
          (branch?.getD ("agent-" ++ agentId)) ≠ .ok →
      (createWorktree env st repoPath agentId branch? now).1 = none) ∧
    (∀ root, env.isRepo repoPath = true → (getRepoRoot env repoPath).1 = some root →
      env.pathExists (worktreePathOf root agentId) = true →
      (createWorktree env st repoPath agentId branch? now).1 =
        some (worktreePathOf root agentId) ∧
      (createWorktree env st repoPath agentId branch? now).2.1 = st) := by
  refine ⟨?_, ?_, ?_, ?_, ?_⟩
  · intro h
    unfold createWorktree
    rw [if_pos h]
  · intro h₁ h₂
    unfold createWorktree
    rw [if_neg (by rw [h₁]; simp), h₂]
  · intro root hroot hex hto
    by_cases h₁ : env.isRepo repoPath = false
    · unfold createWorktree
      rw [if_pos h₁]
    · unfold createWorktree
      rw [if_neg h₁, hroot]
      dsimp only
      rw [if_neg (by rw [hex]; simp)]
      unfold addAttempt
      rw [hto]
  · intro root hroot hex herr hretry
    by_cases h₁ : env.isRepo repoPath = false
    · unfold createWorktree
      rw [if_pos h₁]
    · unfold createWorktree
      rw [if_neg h₁, hroot]
      dsimp only
      rw [if_neg (by rw [hex]; simp)]
      unfold addAttempt
      rw [herr]
      cases hr : env.addRetryOutcome (worktreePathOf root agentId)
          (branch?.getD ("agent-" ++ agentId)) with
      | ok => exact absurd hr hretry
      | timeoutExpired => rfl
      | err => rfl
  · intro root h₁ hroot hex
    unfold createWorktree
    rw [if_neg (by rw [h₁]; simp), hroot]
    dsimp only
    rw [if_pos hex]
    exact ⟨rfl, rfl⟩

/-- Environment in which the `git worktree add` call times out. -/
def timeoutGitEnv : GitEnv :=
  { happyGitEnv with addOutcome := fun _ _ => .timeoutExpired }

/-- Environment whose paths are not inside a repository. -/
def noRepoGitEnv : GitEnv :=
  { happyGitEnv with isRepo := fun _ => false }

/-- Witness for C8 at concrete environments: a non-repository fails, a
timed-out `git worktree add` fails, and an already-existing target path
reports success. -/
theorem C8_create_failure_modes_witness :
    (createWorktree noRepoGitEnv ⟨24, []⟩ "/x" "a1" none 0).1 = none ∧
    (createWorktree timeoutGitEnv ⟨24, []⟩ "/repo" "a1" none 0).1 = none ∧
    (createWorktree existsGitEnv ⟨24, []⟩ "/repo" "a1" none 0).1 =
      some (worktreePathOf "/repo" "a1") := by
  refine ⟨?_, ?_, ?_⟩
  · exact (C8_create_failure_modes noRepoGitEnv ⟨24, []⟩ "/x" "a1" none 0).1 rfl
  · exact (C8_create_failure_modes timeoutGitEnv ⟨24, []⟩ "/repo" "a1" none 0).2.2.1
      "/repo" rfl (by decide) rfl
  · exact ((C8_create_failure_modes existsGitEnv ⟨24, []⟩ "/repo" "a1" none 0).2.2.2.2
      "/repo" rfl rfl rfl).1

/-! ## Event store (`observability/storage.py`)

The `events` table is modelled as a list of rows plus the AUTOINCREMENT
counter.  A row carries the columns `store_event`/`get_events` read and
filter on (`id`, `event_type`, `timestamp`, `project`, `agent_id`) plus
the always-written `metadata` string; the remaining nullable payload
columns do not affect the store/query control flow and are not claims'
subject.  `timestamp` is an abstract integer whose order mirrors the ISO
string order SQLite compares. -/

inductive EventType
  | agentSpawned
  | agentStarted
  | agentCompleted
  | agentFailed
  | toolUsed
  | worktreeCreated
  | worktreeRemoved
  | sessionUpdated
deriving DecidableEq, Repr

structure EventRow where
  rowid : Nat
  eventType : EventType
  timestamp : Nat
  project : String
  agentId : Option String
  metadata : String
deriving DecidableEq, Repr

structure EventStoreState where
  rows : List EventRow
  nextRowid : Nat
deriving DecidableEq, Repr

/-- The event passed to `store_event` (the fields of `BaseEvent` the
claims touch). -/
structure StoredEvent where
  eventType : EventType
  timestamp : Nat
  project : String
  agentId : Option String
  metadata : String
deriving DecidableEq, Repr

/-- The row an `EventStore.store_event` call inserts. -/
def newRowOf (s : EventStoreState) (e : StoredEvent) : EventRow :=
  { rowid := s.nextRowid
    eventType := e.eventType
    timestamp := e.timestamp
    project := e.project
    agentId := e.agentId
    metadata := e.metadata }

/-- `EventStore.store_event` (`storage.py` 115-153): one INSERT with the
next AUTOINCREMENT id, committed before returning. -/
def storeEvent (s : EventStoreState) (e : StoredEvent) : EventStoreState :=
  { rows := s.rows ++ [newRowOf s e]
    nextRowid := s.nextRowid + 1 }

/-- Python truthiness of an optional string filter: `if project:` is false
for `None` and for the empty string, in which case no WHERE clause is
added. -/
def strFilterTruthy : Option String → Bool
  | none => false
  | some p => p != ""

/-- The WHERE clause built by `get_events` (`storage.py` 177-191): one
equality conjunct per truthy filter.  The `event_type` argument is an enum
member and hence always truthy when present. -/
def rowMatches (etype? : Option EventType) (project? agentId? : Option String)
    (r : EventRow) : Bool :=
  (match etype? with
    | none => true
    | some t => r.eventType = t) &&
  (if strFilterTruthy project? then r.project = project?.getD "" else true) &&
  (if strFilterTruthy agentId? then r.agentId = some (agentId?.getD "") else true)

/-- The ORDER BY relation: timestamp descending. -/
def tsDescRel (a b : EventRow) : Prop := b.timestamp ≤ a.timestamp

instance : DecidableRel tsDescRel := fun a b => Nat.decLe b.timestamp a.timestamp

instance : IsTotal EventRow tsDescRel :=
  ⟨fun a b => Nat.le_total b.timestamp a.timestamp⟩

instance : IsTrans EventRow tsDescRel :=
  ⟨fun _ _ _ hab hbc => Nat.le_trans hbc hab⟩

/-- `EventStore.get_events` (`storage.py` 155-208):
`SELECT * FROM events WHERE <filters> ORDER BY timestamp DESC LIMIT ?
OFFSET ?`. -/
def getEvents (s : EventStoreState) (etype? : Option EventType)
    (project? agentId? : Option String) (limit offset : Nat) : List EventRow :=
  (((List.insertionSort tsDescRel
      (s.rows.filter (rowMatches etype? project? agentId?))).drop offset).take limit)

theorem mem_getEvents_matches (s : EventStoreState) (etype? : Option EventType)
    (project? agentId? : Option String) (limit offset : Nat) (r : EventRow)
    (h : r ∈ getEvents s etype? project? agentId? limit offset) :
    rowMatches etype? project? agentId? r = true := by
  have h₁ : r ∈ List.insertionSort tsDescRel
      (s.rows.filter (rowMatches etype? project? agentId?)) :=
    List.mem_of_mem_drop (List.mem_of_mem_take h)
  have h₂ : r ∈ s.rows.filter (rowMatches etype? project? agentId?) :=
    (List.perm_insertionSort tsDescRel _).mem_iff.mp h₁
  exact List.of_mem_filter h₂

def c9Event : StoredEvent :=
  { eventType := .agentSpawned, timestamp := 5, project := "x",
    agentId := some "a1", metadata := "" }

/-- C9, counterexample.
The claim says every event a query returns matches every supplied filter.
`get_events` adds a WHERE clause only for truthy filter values, so a
supplied empty-string `project` filter is silently dropped: storing one
event with `project = "x"` and querying with `project = ""` returns that
event, which does not match the supplied filter. -/
theorem C9_store_query_counterexample :
    getEvents (storeEvent ⟨[], 1⟩ c9Event) none (some "") none 100 0 =
      [{ rowid := 1, eventType := .agentSpawned, timestamp := 5, project := "x",
         agentId := some "a1", metadata := "" }] ∧
    ({ rowid := 1, eventType := .agentSpawned, timestamp := 5, project := "x",
       agentId := some "a1", metadata := "" } : EventRow).project ≠ "" := by
  refine ⟨by decide, by decide⟩

/-- C9, amended.
`EventStore.store(e)` followed by `query` whose filters match `e` — with
each filter either absent or a non-empty value equal to the corresponding
field of `e` — returns `e` exactly once, provided `offset = 0` and `limit`
is at least the number of matching rows.  Every query returns rows ordered
by `timestamp` descending, and every returned row matches every supplied
non-empty filter (an empty-string `project`/`agent_id` filter is dropped
by the truthiness guard, so rows need not match it). -/
theorem C9_store_query_roundtrip (s : EventStoreState) (e : StoredEvent)
    (etype? : Option EventType) (project? agentId? : Option String)
    (limit offset : Nat) :
    List.Sorted tsDescRel (getEvents s etype? project? agentId? limit offset) ∧
    (∀ r ∈ getEvents s etype? project? agentId? limit offset,
      (∀ t, etype? = some t → r.eventType = t) ∧
      (∀ p, project? = some p → p ≠ "" → r.project = p) ∧
      (∀ a, agentId? = some a → a ≠ "" → r.agentId = some a)) ∧
    ((∀ r ∈ s.rows, r.rowid < s.nextRowid) →
      rowMatches etype? project? agentId? (newRowOf s e) = true →
      ((storeEvent s e).rows.filter (rowMatches etype? project? agentId?)).length ≤ limit →
      ((getEvents (storeEvent s e) etype? project? agentId? limit 0).countP
        (fun r => r.rowid == s.nextRowid)) = 1) := by
  refine ⟨?_, ?_, ?_⟩
  · have hsorted : List.Sorted tsDescRel
        (List.insertionSort tsDescRel
          (s.rows.filter (rowMatches etype? project? agentId?))) :=
      List.sorted_insertionSort tsDescRel _
    have hsub : List.Sublist (getEvents s etype? project? agentId? limit offset)
        (List.insertionSort tsDescRel
          (s.rows.filter (rowMatches etype? project? agentId?))) :=
      (List.take_sublist _ _).trans (List.drop_sublist _ _)
    exact hsorted.sublist hsub
  · intro r hr
    have hm := mem_getEvents_matches s etype? project? agentId? limit offset r hr
    unfold rowMatches at hm
    simp only [Bool.and_eq_true] at hm
    refine ⟨?_, ?_, ?_⟩
    · intro t ht
      subst ht
      have := hm.1.1
      simp at this
      exact this
    · intro p hp hne
      subst hp
      have htr : strFilterTruthy (some p) = true := by
        simp [strFilterTruthy, hne]
      have := hm.1.2
      rw [if_pos htr] at this
      simp at this
      exact this
    · intro a ha hne
      subst ha
      have htr : strFilterTruthy (some a) = true := by
        simp [strFilterTruthy, hne]
      have := hm.2
      rw [if_pos htr] at this
      simp at this
      exact this
  · intro hwf hmatch hlimit
    unfold getEvents
    rw [List.drop_zero]
    have hperm : List.Perm
        (List.insertionSort tsDescRel
          ((storeEvent s e).rows.filter (rowMatches etype? project? agentId?)))
        ((storeEvent s e).rows.filter (rowMatches etype? project? agentId?)) :=
      List.perm_insertionSort tsDescRel _
    have hlen : (List.insertionSort tsDescRel
        ((storeEvent s e).rows.filter (rowMatches etype? project? agentId?))).length ≤ limit := by
      rw [hperm.length_eq]
      exact hlimit
    rw [List.take_of_length_le hlen]
    rw [hperm.countP_eq]
    have hsplit : (storeEvent s e).rows.filter (rowMatches etype? project? agentId?) =
        s.rows.filter (rowMatches etype? project? agentId?) ++ [newRowOf s e] := by
      show (s.rows ++ [newRowOf s e]).filter (rowMatches etype? project? agentId?) = _
      rw [List.filter_append]
      congr 1
      simp [hmatch]
    rw [hsplit, List.countP_append]
    have hzero : (s.rows.filter (rowMatches etype? project? agentId?)).countP
        (fun r => r.rowid == s.nextRowid) = 0 := by
      refine List.countP_eq_zero.mpr ?_
      intro r hr
      have hmem : r ∈ s.rows := List.mem_of_mem_filter hr
      have := hwf r hmem
      simp only [beq_iff_eq]
      omega
    rw [hzero]
    simp [newRowOf]

/-- Witness for C9: storing one event into an empty store and querying
with its exact project filter returns it exactly once. -/
theorem C9_store_query_roundtrip_witness :
    ((getEvents (storeEvent ⟨[], 1⟩ c9Event) none (some "x") (some "a1") 100 0).countP
      (fun r => r.rowid == 1)) = 1 := by
  exact (C9_store_query_roundtrip ⟨[], 1⟩ c9Event none (some "x") (some "a1") 100 0).2.2
    (by intro r hr; simp at hr) (by decide) (by decide)

end Brain
